import Mathlib

/-!
Verification development for the FieldDependencies engine
(src/field-dependencies.js, the canonical revision with cascade inheritance).

Shallow embedding notes:
* JavaScript object references are modelled by numeric ids into explicit
  stores (`stateStore`, `modStore`, `elemStore`); reference identity of two
  objects is equality of their ids.
* A host (jQuery `$element`) reference is a numeric handle; the mutable DOM
  is a "world", an association list from host handle to a value of type `V`.
  A State predicate callback is a function `V → Bool` and a Modifier mutation
  callback is a function `V → V` applied at its element's host handle.
* JavaScript plain objects used as keyed maps (`statesContainer.states`,
  `elementsContainer.elements`, `Element.states`, `Element.modifiers`) are
  association lists; `obj[k] = v` replaces in place when the key exists and
  appends otherwise, so iteration order is insertion order, exactly as
  JavaScript for-in enumerates string-keyed own properties.
* The template containers store full `State`/`Modifier` objects but only
  their `callback` field is ever read back (`get` clones via the callback),
  so the embedding stores the callbacks.
* A thrown exception is modelled by an explicit error value; mutations
  performed before the throw persist in the returned system state, matching
  an exception propagating out of a function that has already mutated the
  process-wide containers.
* The default element key callback reads the host's id attribute; the handle
  stands for that identifier, so the default key function renders the handle.
* The cascade (`Modifier.execute` re-entering `modifyDependents`) can recurse
  without bound on cyclic graphs, so the execution functions take fuel;
  running out of fuel yields `none`, never a wrong answer.
-/

namespace FieldDeps

/-- Association list lookup: first binding wins (there is at most one binding
per key because `setA` replaces in place). -/
def lookupA [DecidableEq κ] : List (κ × α) → κ → Option α
  | [], _ => none
  | (k, v) :: l, key => if k = key then some v else lookupA l key

/-- Association list store, modelling `obj[k] = v` on a JavaScript object:
replace in place when the key exists, append otherwise. -/
def setA [DecidableEq κ] : List (κ × α) → κ → α → List (κ × α)
  | [], key, v => [(key, v)]
  | (k, a) :: l, key, v =>
    if k = key then (key, v) :: l else (k, a) :: setA l key v

/-- Update the entry at index `i` of a list in place (identity when out of
bounds); models mutating one object in a store of objects. -/
def updNth : List α → Nat → (α → α) → List α
  | [], _, _ => []
  | a :: l, 0, f => f a :: l
  | a :: l, n + 1, f => a :: updNth l n f

/-- State instance (function `State` in the source): back-reference to the
owning Element, the predicate callback, and the subscriber list of Modifier
ids in subscription order (`this.modifiers`). -/
structure StInst (V : Type) where
  element : Option Nat
  callback : V → Bool
  modifiers : List Nat

/-- Modifier instance (function `Modifier` in the source): back-reference to
the owning Element, the mutation callback, and the list of subscribed State
ids in subscription order (`this.states`). -/
structure MInst (V : Type) where
  element : Option Nat
  callback : V → V
  states : List Nat

/-- Graph node (function `Element` in the source): host handle plus the
name-keyed attachment maps of State and Modifier instance ids. -/
structure Elem where
  hostId : Nat
  states : List (String × Nat)
  modifiers : List (String × Nat)

/-- Error raised out of `createRelationship`. The source throws a TypeError
when a template container `get` dereferences an undefined template (the
spec's UnknownTemplate); `internal` marks source paths that would
dereference undefined in ways the setup code cannot reach. -/
inductive CRErr where
  | unknownStateTemplate
  | unknownModifierTemplate
  | internal
  deriving DecidableEq, Repr

/-- The process-wide engine state: the two template containers, the current
element key callback, the element registry (key to element id), and the three
object stores. -/
structure Sys (V : Type) where
  stateTemplates : List (String × (V → Bool))
  modTemplates : List (String × (V → V))
  keyFn : Nat → String
  elements : List (String × Nat)
  elemStore : List Elem
  stateStore : List (StInst V)
  modStore : List (MInst V)

/-- Initial engine state: empty containers and the default key callback
(read the host's id attribute, i.e. render the handle). -/
def initSys (V : Type) : Sys V :=
  { stateTemplates := []
    modTemplates := []
    keyFn := fun h => toString h
    elements := []
    elemStore := []
    stateStore := []
    modStore := [] }

/-- Source `elementsContainer.resolve`: look the key up via the current key
callback; return the stored Element if present, otherwise construct a fresh
Element bound to the host (empty attachment maps), store it under the key,
and return it. -/
def resolveEl (s : Sys V) (h : Nat) : Sys V × Nat :=
  let key := s.keyFn h
  match lookupA s.elements key with
  | some eid => (s, eid)
  | none =>
    let eid := s.elemStore.length
    ({ s with
        elements := setA s.elements key eid
        elemStore := s.elemStore ++ [⟨h, [], []⟩] }, eid)

/-- Source `Element.getState`: the attached State instance under a name, if
any. -/
def getStateId (s : Sys V) (eid : Nat) (nm : String) : Option Nat := do
  let elem ← s.elemStore[eid]?
  lookupA elem.states nm

/-- Source `Element.getModifier`: the attached Modifier instance under a
name, if any. -/
def getModifierId (s : Sys V) (eid : Nat) (nm : String) : Option Nat := do
  let elem ← s.elemStore[eid]?
  lookupA elem.modifiers nm

/-- Lines 278-280 of the source: when the dependency Element has no State
under the name, clone the template (`statesContainer.get`, which throws when
the template is absent) and attach the clone, setting its element
back-reference. -/
def attachStateIfAbsent (s : Sys V) (eid : Nat) (sn : String) :
    Sys V × Option CRErr :=
  match getStateId s eid sn with
  | some _ => (s, none)
  | none =>
    match lookupA s.stateTemplates sn with
    | none => (s, some CRErr.unknownStateTemplate)
    | some cb =>
      let sid := s.stateStore.length
      ({ s with
          stateStore := s.stateStore ++ [⟨some eid, cb, []⟩]
          elemStore := updNth s.elemStore eid
            (fun e => { e with states := setA e.states sn sid }) }, none)

/-- Lines 283-285 of the source: the same lazy attach for the dependent
Element's Modifier. -/
def attachModifierIfAbsent (s : Sys V) (eid : Nat) (mn : String) :
    Sys V × Option CRErr :=
  match getModifierId s eid mn with
  | some _ => (s, none)
  | none =>
    match lookupA s.modTemplates mn with
    | none => (s, some CRErr.unknownModifierTemplate)
    | some cb =>
      let mid := s.modStore.length
      ({ s with
          modStore := s.modStore ++ [⟨some eid, cb, []⟩]
          elemStore := updNth s.elemStore eid
            (fun e => { e with modifiers := setA e.modifiers mn mid }) }, none)

/-- Source `Modifier.subscribe`: `state.addModifier(this)` pushes the
Modifier onto the State's subscriber list, and `this.states.push(state)`
records the State on the Modifier; both sides of the edge in one step. -/
def subscribe (s : Sys V) (mid sid : Nat) : Sys V :=
  { s with
      stateStore := updNth s.stateStore sid
        (fun st => { st with modifiers := st.modifiers ++ [mid] })
      modStore := updNth s.modStore mid
        (fun m => { m with states := m.states ++ [sid] }) }

/-- Loop of lines 294-296 of the source: subscribe Modifier `mid` to each
State in the list, in order. -/
def subscribeAll (s : Sys V) (mid : Nat) (L : List Nat) : Sys V :=
  L.foldl (fun acc sid => subscribe acc mid sid) s

/-- Lines 291-298 of the source: when `inheritState` is set and the
dependency Element carries a Modifier under the dependent's modifier name,
subscribe the dependent's Modifier to every State in that Modifier's
subscription list (read once, then iterated in order); otherwise do
nothing. -/
def inheritStep (s : Sys V) (depEid : Nat) (mn : String) (mid : Nat) :
    Sys V :=
  match getModifierId s depEid mn with
  | none => s
  | some dmid =>
    match s.modStore[dmid]? with
    | none => s
    | some dm => subscribeAll s mid dm.states

/-- Tail of `createRelationship`: the inherit step runs only when the
`inheritState` argument is set. -/
def crFinish (inh : Bool) (s5 : Sys V) (depEid : Nat) (mn : String)
    (mid : Nat) : Sys V :=
  if inh then inheritStep s5 depEid mn mid else s5

/-- Source `createRelationship` (lines 271-299): resolve the dependency
Element, lazily attach the named State; resolve the dependent Element,
lazily attach the named Modifier; subscribe the Modifier to the State; then
the optional inherit step. An error returns the system as mutated so far,
matching a thrown exception. -/
def createRelationship (hd : Nat) (sn : String) (ht : Nat) (mn : String)
    (inh : Bool) (s : Sys V) : Sys V × Option CRErr :=
  let r1 := resolveEl s hd
  match attachStateIfAbsent r1.1 r1.2 sn with
  | (s2, some e) => (s2, some e)
  | (s2, none) =>
    let r3 := resolveEl s2 ht
    match attachModifierIfAbsent r3.1 r3.2 mn with
    | (s4, some e) => (s4, some e)
    | (s4, none) =>
      match getStateId s4 r1.2 sn, getModifierId s4 r3.2 mn with
      | some sid, some mid =>
        let s5 := subscribe s4 mid sid
        (crFinish inh s5 r1.2 mn mid, none)
      | _, _ => (s4, some CRErr.internal)

/-- Public `addState`: register (or overwrite) a State template under a
name. -/
def addState (nm : String) (cb : V → Bool) (s : Sys V) : Sys V :=
  { s with stateTemplates := setA s.stateTemplates nm cb }

/-- Public `addModifier`: register (or overwrite) a Modifier template under
a name. -/
def addModifier (nm : String) (cb : V → V) (s : Sys V) : Sys V :=
  { s with modTemplates := setA s.modTemplates nm cb }

/-- Public `setElementKeyCallback`: replace the process-wide element key
callback used by all subsequent registry resolutions. -/
def setElementKeyCallback (f : Nat → String) (s : Sys V) : Sys V :=
  { s with keyFn := f }

/-- Observable events of a cascade run: a State's `publish` being invoked,
and a Modifier's mutation callback being invoked. -/
inductive Ev where
  | publish (sid : Nat)
  | exec (mid : Nat)
  deriving DecidableEq, Repr

/-- The mutable DOM: host handle to current value. -/
abbrev World (V : Type) := List (Nat × V)

/-- Run result: final world and the event trace, or `none` when the
JavaScript would crash (undefined dereference) or the fuel ran out. -/
abbrev RunRes (V : Type) := World V × List Ev

/-- Source `State.isActive`: evaluate the predicate callback against the
owning Element's live host reference. -/
def isActiveO (g : Sys V) (w : World V) (sid : Nat) : Option Bool := do
  let st ← g.stateStore[sid]?
  let eid ← st.element
  let elem ← g.elemStore[eid]?
  let v ← lookupA w elem.hostId
  pure (st.callback v)

/-- Source `Element.getActiveStates`: walk the attachment map in order and
keep the States whose predicate is currently true. The source also checks
`hasOwnProperty('isActive')`, which is true of every State instance. -/
def activeIds (g : Sys V) (w : World V) : List (String × Nat) → Option (List Nat)
  | [] => some []
  | (_, sid) :: rest => do
    let b ← isActiveO g w sid
    let restA ← activeIds g w rest
    pure (if b then sid :: restA else restA)

/-- Loop body of `State.publish`: run `Modifier.execute` on each subscriber
in order. `md` is the fan-out procedure invoked by the cascade step;
`Modifier.execute` first applies the mutation callback to the owning
Element's host value, then re-enters that Element's fan-out. -/
def execListH (g : Sys V) (md : Nat → World V → List Ev → Option (RunRes V)) :
    List Nat → World V → List Ev → Option (RunRes V)
  | [], w, tr => some (w, tr)
  | mid :: rest, w, tr => do
    let m ← g.modStore[mid]?
    let eid ← m.element
    let elem ← g.elemStore[eid]?
    let v ← lookupA w elem.hostId
    let r ← md eid (setA w elem.hostId (m.callback v)) (tr ++ [Ev.exec mid])
    execListH g md rest r.1 r.2

/-- Loop of `modifyDependents` over the snapshot of active States: invoke
`publish` on each in order (the source also checks
`hasOwnProperty('publish')`, true of every State instance); each `publish`
runs `execute` on that State's subscribers. -/
def publishListH (g : Sys V) (md : Nat → World V → List Ev → Option (RunRes V)) :
    List Nat → World V → List Ev → Option (RunRes V)
  | [], w, tr => some (w, tr)
  | sid :: rest, w, tr => do
    let st ← g.stateStore[sid]?
    let r ← execListH g md st.modifiers w (tr ++ [Ev.publish sid])
    publishListH g md rest r.1 r.2

/-- Source `modifyDependents` (the Element fan-out procedure, both the change
handler registered in the Element constructor and the directly callable
method): snapshot the active States, then publish each. Fuel bounds the
cascade depth (`Modifier.execute` re-enters this procedure). -/
def modifyDependentsF (g : Sys V) : Nat → Nat → World V → List Ev → Option (RunRes V)
  | 0, _, _, _ => none
  | fuel + 1, eid, w, tr => do
    let elem ← g.elemStore[eid]?
    let act ← activeIds g w elem.states
    publishListH g (fun e w1 t1 => modifyDependentsF g fuel e w1 t1) act w tr

/-- One change signal on the host of element `eid`: the registered change
handler is that Element's `modifyDependents`, started with an empty trace. -/
def triggerChange (g : Sys V) (fuel : Nat) (eid : Nat) (w : World V) :
    Option (RunRes V) :=
  modifyDependentsF g fuel eid w []

/-! Basic lemmas about the association-list and store primitives. -/

theorem lookupA_setA_self [DecidableEq κ] (l : List (κ × α)) (k : κ) (v : α) :
    lookupA (setA l k v) k = some v := by
  induction l with
  | nil => simp [setA, lookupA]
  | cons p l ih =>
    obtain ⟨k1, v1⟩ := p
    by_cases h : k1 = k
    · simp [setA, h, lookupA]
    · simp [setA, h, lookupA, ih]

theorem lookupA_setA_ne [DecidableEq κ] (l : List (κ × α)) (k k' : κ) (v : α)
    (h : k' ≠ k) : lookupA (setA l k v) k' = lookupA l k' := by
  have hne : ¬ (k = k') := fun hh => h hh.symm
  induction l with
  | nil => simp [setA, lookupA, hne]
  | cons p l ih =>
    obtain ⟨k1, v1⟩ := p
    by_cases h1 : k1 = k
    · subst h1
      simp [setA, lookupA, hne]
    · simp [setA, h1, lookupA, ih]

@[simp] theorem updNth_length (l : List α) (i : Nat) (f : α → α) :
    (updNth l i f).length = l.length := by
  induction l generalizing i with
  | nil => simp [updNth]
  | cons a l ih => cases i <;> simp [updNth, ih]

theorem updNth_getElem_self (l : List α) (i : Nat) (f : α → α) :
    (updNth l i f)[i]? = l[i]?.map f := by
  induction l generalizing i with
  | nil => simp [updNth]
  | cons a l ih => cases i <;> simp [updNth, ih]

theorem updNth_getElem_ne (l : List α) (i j : Nat) (f : α → α) (h : j ≠ i) :
    (updNth l i f)[j]? = l[j]? := by
  induction l generalizing i j with
  | nil => simp [updNth]
  | cons a l ih =>
    cases i with
    | zero => cases j with
      | zero => exact absurd rfl h
      | succ j => simp [updNth]
    | succ i => cases j with
      | zero => simp [updNth]
      | succ j => simpa [updNth] using ih i j (by omega)

theorem getElem_concat (l : List α) (x : α) (i : Nat) :
    (l ++ [x])[i]? =
      if i < l.length then l[i]? else if i = l.length then some x else none := by
  by_cases h1 : i < l.length
  · simp [h1, List.getElem?_append_left h1]
  · by_cases h2 : i = l.length
    · subst h2
      simp [h1, List.getElem?_concat_length]
    · have : (l ++ [x]).length ≤ i := by simp; omega
      simp [h1, h2, List.getElem?_eq_none this]

theorem getElem_concat_left {l : List α} {x e : α} {i : Nat}
    (h : l[i]? = some e) : (l ++ [x])[i]? = some e := by
  have hlt : i < l.length := by
    rcases List.getElem?_eq_some.mp h with ⟨hl, _⟩
    exact hl
  rw [List.getElem?_append_left hlt, h]

/-! Behavior of `resolveEl` on its two branches, and what it preserves. -/

theorem resolveEl_of_lookup {s : Sys V} {h e : Nat}
    (hl : lookupA s.elements (s.keyFn h) = some e) : resolveEl s h = (s, e) := by
  simp [resolveEl, hl]

theorem resolveEl_of_none {s : Sys V} {h : Nat}
    (hl : lookupA s.elements (s.keyFn h) = none) :
    resolveEl s h =
      ({ s with
          elements := setA s.elements (s.keyFn h) s.elemStore.length
          elemStore := s.elemStore ++ [⟨h, [], []⟩] }, s.elemStore.length) := by
  simp [resolveEl, hl]

theorem resolveEl_keyFn (s : Sys V) (h : Nat) :
    (resolveEl s h).1.keyFn = s.keyFn := by
  cases hl : lookupA s.elements (s.keyFn h) with
  | none => rw [resolveEl_of_none hl]
  | some e => rw [resolveEl_of_lookup hl]

theorem resolveEl_stateStore (s : Sys V) (h : Nat) :
    (resolveEl s h).1.stateStore = s.stateStore := by
  cases hl : lookupA s.elements (s.keyFn h) with
  | none => rw [resolveEl_of_none hl]
  | some e => rw [resolveEl_of_lookup hl]

theorem resolveEl_modStore (s : Sys V) (h : Nat) :
    (resolveEl s h).1.modStore = s.modStore := by
  cases hl : lookupA s.elements (s.keyFn h) with
  | none => rw [resolveEl_of_none hl]
  | some e => rw [resolveEl_of_lookup hl]

theorem resolveEl_stateTemplates (s : Sys V) (h : Nat) :
    (resolveEl s h).1.stateTemplates = s.stateTemplates := by
  cases hl : lookupA s.elements (s.keyFn h) with
  | none => rw [resolveEl_of_none hl]
  | some e => rw [resolveEl_of_lookup hl]

theorem resolveEl_modTemplates (s : Sys V) (h : Nat) :
    (resolveEl s h).1.modTemplates = s.modTemplates := by
  cases hl : lookupA s.elements (s.keyFn h) with
  | none => rw [resolveEl_of_none hl]
  | some e => rw [resolveEl_of_lookup hl]

theorem resolveEl_lookup_self (s : Sys V) (h : Nat) :
    lookupA (resolveEl s h).1.elements (s.keyFn h) = some (resolveEl s h).2 := by
  cases hl : lookupA s.elements (s.keyFn h) with
  | none => rw [resolveEl_of_none hl]; exact lookupA_setA_self _ _ _
  | some e => rw [resolveEl_of_lookup hl]; exact hl

theorem resolveEl_lookup_mono {s : Sys V} {k : String} {e : Nat} (h : Nat)
    (hl : lookupA s.elements k = some e) :
    lookupA (resolveEl s h).1.elements k = some e := by
  cases hl2 : lookupA s.elements (s.keyFn h) with
  | none =>
    rw [resolveEl_of_none hl2]
    have hk : k ≠ s.keyFn h := fun hh => by rw [hh, hl2] at hl; exact (by simp at hl)
    rw [lookupA_setA_ne _ _ _ _ hk]; exact hl
  | some e2 => rw [resolveEl_of_lookup hl2]; exact hl

theorem resolveEl_elemStore_mono {s : Sys V} {i : Nat} {e : Elem} (h : Nat)
    (hl : s.elemStore[i]? = some e) : (resolveEl s h).1.elemStore[i]? = some e := by
  cases hl2 : lookupA s.elements (s.keyFn h) with
  | none => rw [resolveEl_of_none hl2]; exact getElem_concat_left hl
  | some e2 => rw [resolveEl_of_lookup hl2]; exact hl

theorem resolveEl_getStateId_mono {s : Sys V} {eid : Nat} {nm : String} {x : Nat}
    (h : Nat) (hg : getStateId s eid nm = some x) :
    getStateId (resolveEl s h).1 eid nm = some x := by
  unfold getStateId at hg ⊢
  rcases Option.bind_eq_some.mp hg with ⟨elem, he, hlk⟩
  rw [resolveEl_elemStore_mono h he]
  simpa using hlk

theorem resolveEl_getModifierId_mono {s : Sys V} {eid : Nat} {nm : String} {x : Nat}
    (h : Nat) (hg : getModifierId s eid nm = some x) :
    getModifierId (resolveEl s h).1 eid nm = some x := by
  unfold getModifierId at hg ⊢
  rcases Option.bind_eq_some.mp hg with ⟨elem, he, hlk⟩
  rw [resolveEl_elemStore_mono h he]
  simpa using hlk

/-! Behavior of the lazy attach steps on their branches, and what they
preserve. -/

theorem attachState_of_present {s : Sys V} {eid : Nat} {sn : String} {x : Nat}
    (hp : getStateId s eid sn = some x) :
    attachStateIfAbsent s eid sn = (s, none) := by
  simp [attachStateIfAbsent, hp]

theorem attachState_of_noTemplate {s : Sys V} {eid : Nat} {sn : String}
    (hp : getStateId s eid sn = none)
    (ht : lookupA s.stateTemplates sn = none) :
    attachStateIfAbsent s eid sn = (s, some CRErr.unknownStateTemplate) := by
  simp [attachStateIfAbsent, hp, ht]

theorem attachState_of_attach {s : Sys V} {eid : Nat} {sn : String} {cb : V → Bool}
    (hp : getStateId s eid sn = none)
    (ht : lookupA s.stateTemplates sn = some cb) :
    attachStateIfAbsent s eid sn =
      ({ s with
          stateStore := s.stateStore ++ [⟨some eid, cb, []⟩]
          elemStore := updNth s.elemStore eid
            (fun e => { e with states := setA e.states sn s.stateStore.length }) },
        none) := by
  simp [attachStateIfAbsent, hp, ht]

theorem attachModifier_of_present {s : Sys V} {eid : Nat} {mn : String} {x : Nat}
    (hp : getModifierId s eid mn = some x) :
    attachModifierIfAbsent s eid mn = (s, none) := by
  simp [attachModifierIfAbsent, hp]

theorem attachModifier_of_noTemplate {s : Sys V} {eid : Nat} {mn : String}
    (hp : getModifierId s eid mn = none)
    (ht : lookupA s.modTemplates mn = none) :
    attachModifierIfAbsent s eid mn = (s, some CRErr.unknownModifierTemplate) := by
  simp [attachModifierIfAbsent, hp, ht]

theorem attachModifier_of_attach {s : Sys V} {eid : Nat} {mn : String} {cb : V → V}
    (hp : getModifierId s eid mn = none)
    (ht : lookupA s.modTemplates mn = some cb) :
    attachModifierIfAbsent s eid mn =
      ({ s with
          modStore := s.modStore ++ [⟨some eid, cb, []⟩]
          elemStore := updNth s.elemStore eid
            (fun e => { e with modifiers := setA e.modifiers mn s.modStore.length }) },
        none) := by
  simp [attachModifierIfAbsent, hp, ht]

theorem attachState_keyFn (s : Sys V) (eid : Nat) (sn : String) :
    (attachStateIfAbsent s eid sn).1.keyFn = s.keyFn := by
  unfold attachStateIfAbsent
  cases getStateId s eid sn <;> [skip; rfl]
  cases lookupA s.stateTemplates sn <;> rfl

theorem attachState_elements (s : Sys V) (eid : Nat) (sn : String) :
    (attachStateIfAbsent s eid sn).1.elements = s.elements := by
  unfold attachStateIfAbsent
  cases getStateId s eid sn <;> [skip; rfl]
  cases lookupA s.stateTemplates sn <;> rfl

theorem attachState_modStore (s : Sys V) (eid : Nat) (sn : String) :
    (attachStateIfAbsent s eid sn).1.modStore = s.modStore := by
  unfold attachStateIfAbsent
  cases getStateId s eid sn <;> [skip; rfl]
  cases lookupA s.stateTemplates sn <;> rfl

theorem attachState_modTemplates (s : Sys V) (eid : Nat) (sn : String) :
    (attachStateIfAbsent s eid sn).1.modTemplates = s.modTemplates := by
  unfold attachStateIfAbsent
  cases getStateId s eid sn <;> [skip; rfl]
  cases lookupA s.stateTemplates sn <;> rfl

theorem attachState_stateTemplates (s : Sys V) (eid : Nat) (sn : String) :
    (attachStateIfAbsent s eid sn).1.stateTemplates = s.stateTemplates := by
  unfold attachStateIfAbsent
  cases getStateId s eid sn <;> [skip; rfl]
  cases lookupA s.stateTemplates sn <;> rfl

theorem attachState_elemStore_length (s : Sys V) (eid : Nat) (sn : String) :
    (attachStateIfAbsent s eid sn).1.elemStore.length = s.elemStore.length := by
  unfold attachStateIfAbsent
  cases getStateId s eid sn <;> [skip; rfl]
  cases lookupA s.stateTemplates sn <;> simp

theorem attachModifier_keyFn (s : Sys V) (eid : Nat) (mn : String) :
    (attachModifierIfAbsent s eid mn).1.keyFn = s.keyFn := by
  unfold attachModifierIfAbsent
  cases getModifierId s eid mn <;> [skip; rfl]
  cases lookupA s.modTemplates mn <;> rfl

theorem attachModifier_elements (s : Sys V) (eid : Nat) (mn : String) :
    (attachModifierIfAbsent s eid mn).1.elements = s.elements := by
  unfold attachModifierIfAbsent
  cases getModifierId s eid mn <;> [skip; rfl]
  cases lookupA s.modTemplates mn <;> rfl

theorem attachModifier_stateStore (s : Sys V) (eid : Nat) (mn : String) :
    (attachModifierIfAbsent s eid mn).1.stateStore = s.stateStore := by
  unfold attachModifierIfAbsent
  cases getModifierId s eid mn <;> [skip; rfl]
  cases lookupA s.modTemplates mn <;> rfl

theorem attachModifier_getStateId (s : Sys V) (eid : Nat) (mn : String)
    (e : Nat) (n : String) :
    getStateId (attachModifierIfAbsent s eid mn).1 e n = getStateId s e n := by
  unfold attachModifierIfAbsent
  cases getModifierId s eid mn with
  | some x => rfl
  | none =>
    cases lookupA s.modTemplates mn with
    | none => rfl
    | some cb =>
      unfold getStateId
      simp only
      by_cases he : e = eid
      · subst he
        rw [updNth_getElem_self]
        cases s.elemStore[e]? <;> simp
      · rw [updNth_getElem_ne _ _ _ _ he]

/-! Behavior of `subscribe`, `subscribeAll` and `inheritStep`. -/

@[simp] theorem subscribe_elemStore (s : Sys V) (mid sid : Nat) :
    (subscribe s mid sid).elemStore = s.elemStore := rfl

@[simp] theorem subscribe_elements (s : Sys V) (mid sid : Nat) :
    (subscribe s mid sid).elements = s.elements := rfl

@[simp] theorem subscribe_keyFn (s : Sys V) (mid sid : Nat) :
    (subscribe s mid sid).keyFn = s.keyFn := rfl

@[simp] theorem subscribe_stateTemplates (s : Sys V) (mid sid : Nat) :
    (subscribe s mid sid).stateTemplates = s.stateTemplates := rfl

@[simp] theorem subscribe_modTemplates (s : Sys V) (mid sid : Nat) :
    (subscribe s mid sid).modTemplates = s.modTemplates := rfl

@[simp] theorem subscribe_stateStore_length (s : Sys V) (mid sid : Nat) :
    (subscribe s mid sid).stateStore.length = s.stateStore.length := by
  simp [subscribe]

@[simp] theorem subscribe_modStore_length (s : Sys V) (mid sid : Nat) :
    (subscribe s mid sid).modStore.length = s.modStore.length := by
  simp [subscribe]

theorem subscribe_modStore_self (s : Sys V) (mid sid : Nat) :
    (subscribe s mid sid).modStore[mid]? =
      s.modStore[mid]?.map (fun m => { m with states := m.states ++ [sid] }) := by
  simp [subscribe, updNth_getElem_self]

theorem subscribe_stateStore_self (s : Sys V) (mid sid : Nat) :
    (subscribe s mid sid).stateStore[sid]? =
      s.stateStore[sid]?.map (fun st => { st with modifiers := st.modifiers ++ [mid] }) := by
  simp [subscribe, updNth_getElem_self]

theorem getStateId_ext {s t : Sys V} (h : s.elemStore = t.elemStore)
    (eid : Nat) (nm : String) : getStateId s eid nm = getStateId t eid nm := by
  unfold getStateId; rw [h]

theorem getModifierId_ext {s t : Sys V} (h : s.elemStore = t.elemStore)
    (eid : Nat) (nm : String) : getModifierId s eid nm = getModifierId t eid nm := by
  unfold getModifierId; rw [h]

theorem subscribeAll_cons (s : Sys V) (mid a : Nat) (L : List Nat) :
    subscribeAll s mid (a :: L) = subscribeAll (subscribe s mid a) mid L := rfl

@[simp] theorem subscribeAll_elemStore (s : Sys V) (mid : Nat) (L : List Nat) :
    (subscribeAll s mid L).elemStore = s.elemStore := by
  induction L generalizing s with
  | nil => rfl
  | cons a L ih => rw [subscribeAll_cons, ih]; rfl

@[simp] theorem subscribeAll_elements (s : Sys V) (mid : Nat) (L : List Nat) :
    (subscribeAll s mid L).elements = s.elements := by
  induction L generalizing s with
  | nil => rfl
  | cons a L ih => rw [subscribeAll_cons, ih]; rfl

@[simp] theorem subscribeAll_keyFn (s : Sys V) (mid : Nat) (L : List Nat) :
    (subscribeAll s mid L).keyFn = s.keyFn := by
  induction L generalizing s with
  | nil => rfl
  | cons a L ih => rw [subscribeAll_cons, ih]; rfl

@[simp] theorem subscribeAll_stateStore_length (s : Sys V) (mid : Nat) (L : List Nat) :
    (subscribeAll s mid L).stateStore.length = s.stateStore.length := by
  induction L generalizing s with
  | nil => rfl
  | cons a L ih => rw [subscribeAll_cons, ih]; simp

@[simp] theorem subscribeAll_modStore_length (s : Sys V) (mid : Nat) (L : List Nat) :
    (subscribeAll s mid L).modStore.length = s.modStore.length := by
  induction L generalizing s with
  | nil => rfl
  | cons a L ih => rw [subscribeAll_cons, ih]; simp

theorem subscribeAll_modStore_self (s : Sys V) (mid : Nat) (L : List Nat) :
    (subscribeAll s mid L).modStore[mid]? =
      s.modStore[mid]?.map (fun m => { m with states := m.states ++ L }) := by
  induction L generalizing s with
  | nil =>
    cases h : s.modStore[mid]? <;> simp [subscribeAll, h]
  | cons a L ih =>
    rw [subscribeAll_cons, ih, subscribe_modStore_self]
    cases h : s.modStore[mid]? <;> simp

theorem subscribe_stateStore_ne (s : Sys V) (mid sid x : Nat) (h : x ≠ sid) :
    (subscribe s mid sid).stateStore[x]? = s.stateStore[x]? := by
  show (updNth s.stateStore sid _)[x]? = _
  exact updNth_getElem_ne _ _ _ _ h

theorem subscribeAll_stateStore_extra (s : Sys V) (mid : Nat) (L : List Nat)
    (x : Nat) :
    ∃ extra : List Nat, (subscribeAll s mid L).stateStore[x]? =
      s.stateStore[x]?.map
        (fun st => { st with modifiers := st.modifiers ++ extra }) := by
  induction L generalizing s with
  | nil =>
    refine ⟨[], ?_⟩
    cases h : s.stateStore[x]? <;> simp [subscribeAll, h]
  | cons a L ih =>
    rw [subscribeAll_cons]
    obtain ⟨extra, hext⟩ := ih (subscribe s mid a)
    by_cases hx : x = a
    · subst hx
      refine ⟨[mid] ++ extra, ?_⟩
      rw [hext, subscribe_stateStore_self]
      cases h : s.stateStore[x]? <;> simp
    · refine ⟨extra, ?_⟩
      rw [hext, subscribe_stateStore_ne s mid a x hx]

theorem inheritStep_of_noModifier {s : Sys V} {depEid : Nat} {mn : String}
    {mid : Nat} (h : getModifierId s depEid mn = none) :
    inheritStep s depEid mn mid = s := by
  simp [inheritStep, h]

theorem inheritStep_of_modifier {s : Sys V} {depEid : Nat} {mn : String}
    {mid dmid : Nat} {dm : MInst V} (h : getModifierId s depEid mn = some dmid)
    (hm : s.modStore[dmid]? = some dm) :
    inheritStep s depEid mn mid = subscribeAll s mid dm.states := by
  simp [inheritStep, h, hm]

@[simp] theorem inheritStep_elemStore (s : Sys V) (depEid : Nat) (mn : String)
    (mid : Nat) : (inheritStep s depEid mn mid).elemStore = s.elemStore := by
  unfold inheritStep
  cases getModifierId s depEid mn with
  | none => rfl
  | some dmid => cases hm : s.modStore[dmid]? <;> simp [hm]

@[simp] theorem inheritStep_elements (s : Sys V) (depEid : Nat) (mn : String)
    (mid : Nat) : (inheritStep s depEid mn mid).elements = s.elements := by
  unfold inheritStep
  cases getModifierId s depEid mn with
  | none => rfl
  | some dmid => cases hm : s.modStore[dmid]? <;> simp [hm]

@[simp] theorem inheritStep_keyFn (s : Sys V) (depEid : Nat) (mn : String)
    (mid : Nat) : (inheritStep s depEid mn mid).keyFn = s.keyFn := by
  unfold inheritStep
  cases getModifierId s depEid mn with
  | none => rfl
  | some dmid => cases hm : s.modStore[dmid]? <;> simp [hm]

@[simp] theorem inheritStep_stateStore_length (s : Sys V) (depEid : Nat)
    (mn : String) (mid : Nat) :
    (inheritStep s depEid mn mid).stateStore.length = s.stateStore.length := by
  unfold inheritStep
  cases getModifierId s depEid mn with
  | none => rfl
  | some dmid => cases hm : s.modStore[dmid]? <;> simp [hm]

@[simp] theorem inheritStep_modStore_length (s : Sys V) (depEid : Nat)
    (mn : String) (mid : Nat) :
    (inheritStep s depEid mn mid).modStore.length = s.modStore.length := by
  unfold inheritStep
  cases getModifierId s depEid mn with
  | none => rfl
  | some dmid => cases hm : s.modStore[dmid]? <;> simp [hm]

@[simp] theorem crFinish_keyFn (inh : Bool) (s5 : Sys V) (depEid : Nat)
    (mn : String) (mid : Nat) :
    (crFinish inh s5 depEid mn mid).keyFn = s5.keyFn := by
  unfold crFinish; cases inh <;> simp

@[simp] theorem crFinish_elements (inh : Bool) (s5 : Sys V) (depEid : Nat)
    (mn : String) (mid : Nat) :
    (crFinish inh s5 depEid mn mid).elements = s5.elements := by
  unfold crFinish; cases inh <;> simp

@[simp] theorem crFinish_elemStore (inh : Bool) (s5 : Sys V) (depEid : Nat)
    (mn : String) (mid : Nat) :
    (crFinish inh s5 depEid mn mid).elemStore = s5.elemStore := by
  unfold crFinish; cases inh <;> simp

@[simp] theorem crFinish_stateStore_length (inh : Bool) (s5 : Sys V)
    (depEid : Nat) (mn : String) (mid : Nat) :
    (crFinish inh s5 depEid mn mid).stateStore.length = s5.stateStore.length := by
  unfold crFinish; cases inh <;> simp

@[simp] theorem crFinish_modStore_length (inh : Bool) (s5 : Sys V)
    (depEid : Nat) (mn : String) (mid : Nat) :
    (crFinish inh s5 depEid mn mid).modStore.length = s5.modStore.length := by
  unfold crFinish; cases inh <;> simp

/-! What a successful `createRelationship` call guarantees about the
resulting system. -/

theorem cr_success_spec {V : Type} {s s1 : Sys V} {hd ht : Nat}
    {sn mn : String} {inh : Bool}
    (h : createRelationship hd sn ht mn inh s = (s1, none)) :
    s1.keyFn = s.keyFn ∧
    ∃ depEid tEid sid mid,
      lookupA s1.elements (s.keyFn hd) = some depEid ∧
      lookupA s1.elements (s.keyFn ht) = some tEid ∧
      getStateId s1 depEid sn = some sid ∧
      getModifierId s1 tEid mn = some mid := by
  simp only [createRelationship] at h
  split at h
  · simp at h
  · rename_i s2 heq1
    split at h
    · simp at h
    · rename_i s4 heq2
      split at h
      · rename_i sid mid heq3 heq4
        have hs1 : s1 = crFinish inh (subscribe s4 mid sid) (resolveEl s hd).2 mn mid := by
          have := congrArg Prod.fst h
          simpa using this.symm
        have kf2 : s2.keyFn = (resolveEl s hd).1.keyFn := by
          have := attachState_keyFn (resolveEl s hd).1 (resolveEl s hd).2 sn
          rw [heq1] at this; exact this
        have kf4 : s4.keyFn = (resolveEl s2 ht).1.keyFn := by
          have := attachModifier_keyFn (resolveEl s2 ht).1 (resolveEl s2 ht).2 mn
          rw [heq2] at this; exact this
        have kfAll : s4.keyFn = s.keyFn := by
          rw [kf4, resolveEl_keyFn, kf2, resolveEl_keyFn]
        have kf5 : s1.keyFn = s4.keyFn := by rw [hs1]; simp
        have el2 : s2.elements = (resolveEl s hd).1.elements := by
          have := attachState_elements (resolveEl s hd).1 (resolveEl s hd).2 sn
          rw [heq1] at this; exact this
        have el4 : s4.elements = (resolveEl s2 ht).1.elements := by
          have := attachModifier_elements (resolveEl s2 ht).1 (resolveEl s2 ht).2 mn
          rw [heq2] at this; exact this
        have el5 : s1.elements = s4.elements := by rw [hs1]; simp
        have es4 : s1.elemStore = s4.elemStore := by rw [hs1]; simp
        refine ⟨by rw [kf5, kfAll], (resolveEl s hd).2, (resolveEl s2 ht).2,
          sid, mid, ?_, ?_, ?_, ?_⟩
        · rw [el5, el4]
          refine resolveEl_lookup_mono ht ?_
          rw [el2]
          exact resolveEl_lookup_self s hd
        · rw [el5, el4]
          have := resolveEl_lookup_self s2 ht
          rwa [kf2, resolveEl_keyFn] at this
        · rw [getStateId_ext es4]; exact heq3
        · rw [getModifierId_ext es4]; exact heq4
      · simp at h

theorem crFinish_false (s5 : Sys V) (depEid : Nat) (mn : String) (mid : Nat) :
    crFinish false s5 depEid mn mid = s5 := rfl

/-! Concrete demonstration systems used by witnesses and counterexamples. -/

/-- Registered state "on" (host value is 1) and modifier "bump" (increment
host value). -/
def demoBase : Sys Nat :=
  addModifier "bump" (fun v => v + 1)
    (addState "on" (fun v => v == 1) (initSys Nat))

/-- One relationship: host 0's "on" state drives host 1's "bump"
modifier. -/
def demoOnce : Sys Nat :=
  (createRelationship 0 "on" 1 "bump" false demoBase).1

/-- C5: calling createRelationship twice with identical arguments leaves the
attachment maps of both Elements unchanged after the first call (the whole
element store is unchanged and no new State or Modifier instance is
created), while the subscribe step appends a duplicate entry to the State's
subscriber list and the Modifier's subscription list — for every value of
inheritState: the repeated call appends the ordinary duplicate pair first,
followed only by the extra entries the inherit step re-subscribes (none when
inheritState is unset). -/
theorem cr_repeat_no_duplicate_instances {V : Type} {s s1 : Sys V}
    {hd ht : Nat} {sn mn : String} {inh : Bool}
    (h : createRelationship hd sn ht mn inh s = (s1, none)) :
    (createRelationship hd sn ht mn inh s1).2 = none ∧
    (createRelationship hd sn ht mn inh s1).1.elements = s1.elements ∧
    (createRelationship hd sn ht mn inh s1).1.elemStore = s1.elemStore ∧
    (createRelationship hd sn ht mn inh s1).1.stateStore.length
      = s1.stateStore.length ∧
    (createRelationship hd sn ht mn inh s1).1.modStore.length
      = s1.modStore.length ∧
    (inh = false → ∃ sid mid,
      getStateId s1 (resolveEl s1 hd).2 sn = some sid ∧
      getModifierId s1 (resolveEl s1 ht).2 mn = some mid ∧
      (createRelationship hd sn ht mn inh s1).1.stateStore[sid]? =
        s1.stateStore[sid]?.map
          (fun st => { st with modifiers := st.modifiers ++ [mid] }) ∧
      (createRelationship hd sn ht mn inh s1).1.modStore[mid]? =
        s1.modStore[mid]?.map
          (fun m => { m with states := m.states ++ [sid] })) ∧
    (∃ (sid mid : Nat) (extraS extraM : List Nat),
      getStateId s1 (resolveEl s1 hd).2 sn = some sid ∧
      getModifierId s1 (resolveEl s1 ht).2 mn = some mid ∧
      (createRelationship hd sn ht mn inh s1).1.stateStore[sid]? =
        s1.stateStore[sid]?.map
          (fun st => { st with modifiers := st.modifiers ++ [mid] ++ extraS }) ∧
      (createRelationship hd sn ht mn inh s1).1.modStore[mid]? =
        s1.modStore[mid]?.map
          (fun m => { m with states := m.states ++ [sid] ++ extraM }) ∧
      (inh = false → extraS = [] ∧ extraM = [])) := by
  obtain ⟨kf, depEid, tEid, sid, mid, hld, hlt, hgs, hgm⟩ := cr_success_spec h
  have r1 : resolveEl s1 hd = (s1, depEid) :=
    resolveEl_of_lookup (by rw [kf]; exact hld)
  have r2 : resolveEl s1 ht = (s1, tEid) :=
    resolveEl_of_lookup (by rw [kf]; exact hlt)
  have a1 : attachStateIfAbsent s1 depEid sn = (s1, none) :=
    attachState_of_present hgs
  have a2 : attachModifierIfAbsent s1 tEid mn = (s1, none) :=
    attachModifier_of_present hgm
  have key : createRelationship hd sn ht mn inh s1 =
      (crFinish inh (subscribe s1 mid sid) depEid mn mid, none) := by
    simp only [createRelationship, r1, a1, r2, a2, hgs, hgm]
  have hcr : ∃ eS eM : List Nat,
      (crFinish inh (subscribe s1 mid sid) depEid mn mid).stateStore[sid]? =
        (subscribe s1 mid sid).stateStore[sid]?.map
          (fun st => { st with modifiers := st.modifiers ++ eS }) ∧
      (crFinish inh (subscribe s1 mid sid) depEid mn mid).modStore[mid]? =
        (subscribe s1 mid sid).modStore[mid]?.map
          (fun m => { m with states := m.states ++ eM }) ∧
      (inh = false → eS = [] ∧ eM = []) := by
    cases inh with
    | false =>
      refine ⟨[], [], ?_, ?_, fun _ => ⟨rfl, rfl⟩⟩
      · rw [crFinish_false]
        cases hq : (subscribe s1 mid sid).stateStore[sid]? <;> simp
      · rw [crFinish_false]
        cases hq : (subscribe s1 mid sid).modStore[mid]? <;> simp
    | true =>
      have hct : crFinish true (subscribe s1 mid sid) depEid mn mid
          = inheritStep (subscribe s1 mid sid) depEid mn mid := rfl
      cases hg : getModifierId (subscribe s1 mid sid) depEid mn with
      | none =>
        rw [hct, inheritStep_of_noModifier hg]
        refine ⟨[], [], ?_, ?_, fun hf => by simp at hf⟩
        · cases hq : (subscribe s1 mid sid).stateStore[sid]? <;> simp
        · cases hq : (subscribe s1 mid sid).modStore[mid]? <;> simp
      | some dmid =>
        cases hm : (subscribe s1 mid sid).modStore[dmid]? with
        | none =>
          rw [hct]
          simp only [inheritStep, hg, hm]
          refine ⟨[], [], ?_, ?_, fun hf => by simp at hf⟩
          · cases hq : (subscribe s1 mid sid).stateStore[sid]? <;> simp
          · cases hq : (subscribe s1 mid sid).modStore[mid]? <;> simp
        | some dm =>
          rw [hct, inheritStep_of_modifier hg hm]
          obtain ⟨eS, heS⟩ :=
            subscribeAll_stateStore_extra (subscribe s1 mid sid) mid dm.states sid
          exact ⟨eS, dm.states, heS,
            subscribeAll_modStore_self (subscribe s1 mid sid) mid dm.states,
            fun hf => by simp at hf⟩
  obtain ⟨eS, eM, heS, heM, hEmpty⟩ := hcr
  refine ⟨by rw [key], by rw [key]; simp, by rw [key]; simp,
    by rw [key]; simp, by rw [key]; simp, ?_, ?_⟩
  · intro hf
    subst hf
    rw [key, crFinish_false]
    exact ⟨sid, mid, by rw [r1]; exact hgs, by rw [r2]; exact hgm,
      subscribe_stateStore_self s1 mid sid, subscribe_modStore_self s1 mid sid⟩
  · refine ⟨sid, mid, eS, eM, by rw [r1]; exact hgs, by rw [r2]; exact hgm,
      ?_, ?_, hEmpty⟩
    · simp only [key]
      rw [heS, subscribe_stateStore_self]
      cases hq : s1.stateStore[sid]? <;> simp
    · simp only [key]
      rw [heM, subscribe_modStore_self]
      cases hq : s1.modStore[mid]? <;> simp

/-- C2: two resolve calls whose hosts map to the same key return the
identical Element (same id), and the second call changes nothing at all; a
new Element is constructed and stored only on the first resolution of a key
(fresh key: the store grows by one and the key is bound to the new id;
known key: the call returns the stored Element and mutates nothing). -/
theorem resolve_identity {V : Type} (s : Sys V) (h1 h2 : Nat)
    (hk : s.keyFn h1 = s.keyFn h2) :
    (resolveEl (resolveEl s h1).1 h2).2 = (resolveEl s h1).2 ∧
    (resolveEl (resolveEl s h1).1 h2).1 = (resolveEl s h1).1 ∧
    (lookupA s.elements (s.keyFn h1) = none →
      (resolveEl s h1).1.elemStore.length = s.elemStore.length + 1 ∧
      lookupA (resolveEl s h1).1.elements (s.keyFn h1)
        = some (resolveEl s h1).2) ∧
    (∀ e, lookupA s.elements (s.keyFn h1) = some e → resolveEl s h1 = (s, e)) := by
  have hsame : lookupA (resolveEl s h1).1.elements ((resolveEl s h1).1.keyFn h2)
      = some (resolveEl s h1).2 := by
    rw [resolveEl_keyFn, ← hk]
    exact resolveEl_lookup_self s h1
  have hres := resolveEl_of_lookup hsame
  refine ⟨by rw [hres], by rw [hres], ?_, fun e he => resolveEl_of_lookup he⟩
  intro hn
  rw [resolveEl_of_none hn]
  exact ⟨by simp, lookupA_setA_self _ _ _⟩

/-- Witness for C2: resolving the same host twice in the empty system. -/
theorem resolve_identity_witness :
    (resolveEl (resolveEl (initSys Nat) 5).1 5).2 = (resolveEl (initSys Nat) 5).2 ∧
    (resolveEl (resolveEl (initSys Nat) 5).1 5).1 = (resolveEl (initSys Nat) 5).1 ∧
    (resolveEl (initSys Nat) 5).1.elemStore.length
      = (initSys Nat).elemStore.length + 1 := by
  have h := resolve_identity (initSys Nat) 5 5 rfl
  exact ⟨h.1, h.2.1, (h.2.2.1 rfl).1⟩

/-- C8: replacing the Element Key Resolver via setElementKeyCallback leaves
the registry and the element store untouched (already-resolved Elements keep
their original keys), and every subsequent resolution computes its key with
the new callback: a host whose new key is bound returns that binding's
Element, and a host whose new key is unbound registers the fresh Element
under the new key. -/
theorem setElementKeyCallback_spec {V : Type} (s : Sys V) (f : Nat → String)
    (h e : Nat) (hl : lookupA s.elements (f h) = some e) :
    (setElementKeyCallback f s).elements = s.elements ∧
    (setElementKeyCallback f s).elemStore = s.elemStore ∧
    resolveEl (setElementKeyCallback f s) h = (setElementKeyCallback f s, e) ∧
    (∀ h2, lookupA s.elements (f h2) = none →
      (resolveEl (setElementKeyCallback f s) h2).1.elements
        = setA s.elements (f h2) s.elemStore.length ∧
      (resolveEl (setElementKeyCallback f s) h2).2 = s.elemStore.length) := by
  refine ⟨rfl, rfl, resolveEl_of_lookup hl, fun h2 hn => ?_⟩
  rw [resolveEl_of_none hn]
  exact ⟨rfl, rfl⟩

/-- Witness for C8: after one resolution under the default callback, swap in
a callback that maps every host to the stored key. -/
theorem setElementKeyCallback_spec_witness :
    resolveEl (setElementKeyCallback (fun _ => "0") demoOnce) 7
      = (setElementKeyCallback (fun _ => "0") demoOnce, 0) ∧
    (setElementKeyCallback (fun _ => "0") demoOnce).elemStore
      = demoOnce.elemStore := by
  have h := setElementKeyCallback_spec demoOnce (fun _ => "0") 7 0 (by rfl)
  exact ⟨h.2.2.1, h.2.1⟩

theorem attachState_isSome {s s2 : Sys V} {eid : Nat} {sn : String}
    {elem : Elem} (h : attachStateIfAbsent s eid sn = (s2, none))
    (hv : s.elemStore[eid]? = some elem) :
    (getStateId s2 eid sn).isSome := by
  unfold attachStateIfAbsent at h
  cases hg : getStateId s eid sn with
  | some x =>
    rw [hg] at h
    simp at h
    rw [← h, hg]
    rfl
  | none =>
    rw [hg] at h
    cases ht : lookupA s.stateTemplates sn with
    | none => rw [ht] at h; simp at h
    | some cb =>
      rw [ht] at h
      simp at h
      rw [← h]
      unfold getStateId
      simp only
      rw [updNth_getElem_self, hv]
      simp [lookupA_setA_self]

/-- C6: createRelationship with a dependency state name that was never
registered fails with the unknown-state-template error before any
attachment: the State and Modifier stores are unchanged and every Element's
attachment maps are as before (at most a fresh Element with empty maps was
registered by the resolve step that precedes the template lookup). -/
theorem cr_unknown_state_template {V : Type} {s : Sys V} {hd ht : Nat}
    {sn mn : String} {inh : Bool}
    (hT : lookupA s.stateTemplates sn = none)
    (hS : getStateId (resolveEl s hd).1 (resolveEl s hd).2 sn = none) :
    createRelationship hd sn ht mn inh s
      = ((resolveEl s hd).1, some CRErr.unknownStateTemplate) ∧
    (resolveEl s hd).1.stateStore = s.stateStore ∧
    (resolveEl s hd).1.modStore = s.modStore ∧
    ∀ i : Nat, (resolveEl s hd).1.elemStore[i]? = s.elemStore[i]? ∨
      (resolveEl s hd).1.elemStore[i]? = some (Elem.mk hd [] []) := by
  have hT1 : lookupA (resolveEl s hd).1.stateTemplates sn = none := by
    rw [resolveEl_stateTemplates]; exact hT
  have hatt := attachState_of_noTemplate hS hT1
  have helems : ∀ i : Nat, (resolveEl s hd).1.elemStore[i]? = s.elemStore[i]? ∨
      (resolveEl s hd).1.elemStore[i]? = some (Elem.mk hd [] []) := by
    intro i
    cases hl : lookupA s.elements (s.keyFn hd) with
    | some e => rw [resolveEl_of_lookup hl]; exact Or.inl rfl
    | none =>
      rw [resolveEl_of_none hl]
      simp only
      rw [getElem_concat]
      by_cases h1 : i < s.elemStore.length
      · simp [h1]
      · by_cases h2 : i = s.elemStore.length
        · simp [h1, h2]
        · left
          simp only [h1, h2, if_false]
          exact (List.getElem?_eq_none (by omega)).symm
  exact ⟨by simp only [createRelationship, hatt], resolveEl_stateStore s hd,
    resolveEl_modStore s hd, helems⟩

/-- Base system for the error-path witnesses: only the state "on" is
registered. -/
def errBase : Sys Nat := addState "on" (fun v => v == 1) (initSys Nat)

/-- Witness for C6: a relationship naming the unregistered state "nope". -/
theorem cr_unknown_state_template_witness :
    createRelationship 0 "nope" 1 "bump" false demoBase
      = ((resolveEl demoBase 0).1, some CRErr.unknownStateTemplate) ∧
    (resolveEl demoBase 0).1.stateStore = demoBase.stateStore ∧
    (resolveEl demoBase 0).1.modStore = demoBase.modStore := by
  have h := @cr_unknown_state_template Nat demoBase 0 1 "nope" "bump"
    false rfl rfl
  exact ⟨h.1, h.2.1, h.2.2.1⟩

/-- C9: with a registered dependency state name but an unregistered
dependent modifier name, the failure is raised only after the dependency
Element has been resolved (and registered) and the named State attached to
it; the returned system keeps both side effects, so the operation performs
no rollback. -/
theorem cr_unknown_modifier_keeps_attach {V : Type} {s s2 : Sys V}
    {hd ht : Nat} {sn mn : String} {inh : Bool} {elem : Elem}
    (h2 : attachStateIfAbsent (resolveEl s hd).1 (resolveEl s hd).2 sn
      = (s2, none))
    (hv : (resolveEl s hd).1.elemStore[(resolveEl s hd).2]? = some elem)
    (h4 : getModifierId (resolveEl s2 ht).1 (resolveEl s2 ht).2 mn = none)
    (h5 : lookupA s.modTemplates mn = none) :
    createRelationship hd sn ht mn inh s
      = ((resolveEl s2 ht).1, some CRErr.unknownModifierTemplate) ∧
    lookupA (resolveEl s2 ht).1.elements (s.keyFn hd)
      = some (resolveEl s hd).2 ∧
    (getStateId (resolveEl s2 ht).1 (resolveEl s hd).2 sn).isSome := by
  have hmt : lookupA (resolveEl s2 ht).1.modTemplates mn = none := by
    rw [resolveEl_modTemplates]
    have hpm := attachState_modTemplates (resolveEl s hd).1 (resolveEl s hd).2 sn
    rw [h2] at hpm
    simp only at hpm
    rw [hpm, resolveEl_modTemplates]
    exact h5
  have hatt := attachModifier_of_noTemplate h4 hmt
  refine ⟨by simp only [createRelationship, h2, hatt], ?_, ?_⟩
  · have hel : s2.elements = (resolveEl s hd).1.elements := by
      have := attachState_elements (resolveEl s hd).1 (resolveEl s hd).2 sn
      rw [h2] at this; exact this
    refine resolveEl_lookup_mono ht ?_
    rw [hel]
    exact resolveEl_lookup_self s hd
  · have hsome := attachState_isSome h2 hv
    rcases Option.isSome_iff_exists.mp hsome with ⟨x, hx⟩
    rw [resolveEl_getStateId_mono ht hx]
    rfl

/-- Intermediate system of the C9 witness: the state attach has happened,
the modifier lookup is about to fail. -/
def errMid : Sys Nat :=
  (attachStateIfAbsent (resolveEl errBase 0).1 (resolveEl errBase 0).2 "on").1

/-- Witness for C9: state "on" is registered, modifier "nomod" is not; the
dependency side effects persist in the returned system. -/
theorem cr_unknown_modifier_keeps_attach_witness :
    createRelationship 0 "on" 1 "nomod" false errBase
      = ((resolveEl errMid 1).1, some CRErr.unknownModifierTemplate) ∧
    (getStateId (resolveEl errMid 1).1 (resolveEl errBase 0).2 "on").isSome := by
  have h := @cr_unknown_modifier_keeps_attach Nat errBase errMid 0 1
    "on" "nomod" false (Elem.mk 0 [] []) rfl rfl rfl rfl
  exact ⟨h.1, h.2.2⟩

/-- C4: on the success path of createRelationship with inheritState set, the
call ends in the inherit step after the ordinary subscription; when the
dependency Element carries a Modifier under the dependent's modifier name,
the dependent's Modifier additionally subscribes to every State in that
Modifier's subscription list (its subscription list is extended by exactly
that list); when the dependency Element carries no such Modifier the
inherit step is a silent no-op and only the ordinary single subscription was
made. -/
theorem cr_inherit_spec {V : Type} {s s2 s4 : Sys V}
    {hd ht depEid tEid sid mid : Nat} {sn mn : String}
    (h2 : attachStateIfAbsent (resolveEl s hd).1 (resolveEl s hd).2 sn
      = (s2, none))
    (hdep : (resolveEl s hd).2 = depEid)
    (h3 : attachModifierIfAbsent (resolveEl s2 ht).1 (resolveEl s2 ht).2 mn
      = (s4, none))
    (htid : (resolveEl s2 ht).2 = tEid)
    (h5 : getStateId s4 depEid sn = some sid)
    (h6 : getModifierId s4 tEid mn = some mid) :
    createRelationship hd sn ht mn true s
      = (inheritStep (subscribe s4 mid sid) depEid mn mid, none) ∧
    (getModifierId (subscribe s4 mid sid) depEid mn = none →
      inheritStep (subscribe s4 mid sid) depEid mn mid = subscribe s4 mid sid ∧
      (subscribe s4 mid sid).modStore[mid]?
        = s4.modStore[mid]?.map (fun m => { m with states := m.states ++ [sid] }) ∧
      (subscribe s4 mid sid).stateStore[sid]?
        = s4.stateStore[sid]?.map
            (fun st => { st with modifiers := st.modifiers ++ [mid] })) ∧
    (∀ dmid dm, getModifierId (subscribe s4 mid sid) depEid mn = some dmid →
      (subscribe s4 mid sid).modStore[dmid]? = some dm →
      (inheritStep (subscribe s4 mid sid) depEid mn mid).modStore[mid]?
        = ((subscribe s4 mid sid).modStore[mid]?).map
            (fun m => { m with states := m.states ++ dm.states })) := by
  subst hdep htid
  refine ⟨?_, ?_, ?_⟩
  · simp only [createRelationship, h2, h3, h5, h6, crFinish]
    simp
  · intro hno
    exact ⟨inheritStep_of_noModifier hno, subscribe_modStore_self s4 mid sid,
      subscribe_stateStore_self s4 mid sid⟩
  · intro dmid dm hm hdm
    rw [inheritStep_of_modifier hm hdm]
    exact subscribeAll_modStore_self _ mid dm.states

/-- Base system for the inherit witness: states "s1", "s2" and modifier
"m". -/
def inhBase : Sys Nat :=
  addModifier "m" (fun v => v + 1)
    (addState "s2" (fun v => v == 2)
      (addState "s1" (fun v => v == 1) (initSys Nat)))

/-- First stage of the inherit witness: host 0's "s1" drives host 1's
"m". -/
def inhOnce : Sys Nat :=
  (createRelationship 0 "s1" 1 "m" false inhBase).1

/-- Attach phases of the second, inheriting call of the witness. -/
def inhS2 : Sys Nat :=
  (attachStateIfAbsent (resolveEl inhOnce 1).1 (resolveEl inhOnce 1).2 "s2").1

/-- System of the witness after both attach phases of the inheriting
call. -/
def inhS4 : Sys Nat :=
  (attachModifierIfAbsent (resolveEl inhS2 2).1 (resolveEl inhS2 2).2 "m").1

/-- Witness for C4: dependency element 1 already carries modifier "m"
subscribed to state 0, so element 2's "m" ends subscribed to state 1 (its
own explicit subscription) and then state 0 (inherited). -/
theorem cr_inherit_spec_witness :
    createRelationship 1 "s2" 2 "m" true inhOnce
      = (inheritStep (subscribe inhS4 1 1) 1 "m" 1, none) ∧
    ((createRelationship 1 "s2" 2 "m" true inhOnce).1.modStore[1]?).map
        MInst.states = some [1, 0] := by
  have h := @cr_inherit_spec Nat inhOnce inhS2 inhS4
    1 2 1 2 1 1 "s2" "m" rfl rfl rfl rfl rfl rfl
  exact ⟨h.1, by rfl⟩

/-- Second stage of the inherit scenario applied once: host 1's "s2" drives
host 2's "m" with inheritState set. -/
def inhTwice : Sys Nat :=
  (createRelationship 1 "s2" 2 "m" true inhOnce).1

/-- Witness for C5 at a repeated inheritState=true call: the repeat is
error-free, creates nothing, and appends the ordinary duplicate pair plus
the inherit re-subscriptions — concretely, modifier 1's subscription list
goes from [1, 0] to [1, 0] ++ [1] ++ [0]. -/
theorem cr_repeat_no_duplicate_instances_witness :
    (createRelationship 1 "s2" 2 "m" true inhTwice).2 = none ∧
    (createRelationship 1 "s2" 2 "m" true inhTwice).1.elemStore
      = inhTwice.elemStore ∧
    (createRelationship 1 "s2" 2 "m" true inhTwice).1.modStore.length
      = inhTwice.modStore.length ∧
    (∃ (sid mid : Nat) (extraS extraM : List Nat),
      getStateId inhTwice (resolveEl inhTwice 1).2 "s2" = some sid ∧
      getModifierId inhTwice (resolveEl inhTwice 2).2 "m" = some mid ∧
      (createRelationship 1 "s2" 2 "m" true inhTwice).1.stateStore[sid]? =
        inhTwice.stateStore[sid]?.map
          (fun st => { st with modifiers := st.modifiers ++ [mid] ++ extraS }) ∧
      (createRelationship 1 "s2" 2 "m" true inhTwice).1.modStore[mid]? =
        inhTwice.modStore[mid]?.map
          (fun m => { m with states := m.states ++ [sid] ++ extraM }) ∧
      (true = false → extraS = [] ∧ extraM = [])) ∧
    ((createRelationship 1 "s2" 2 "m" true inhTwice).1.modStore[1]?).map
        MInst.states = some [1, 0, 1, 0] ∧
    (inhTwice.modStore[1]?).map MInst.states = some [1, 0] := by
  have h := @cr_repeat_no_duplicate_instances Nat inhOnce inhTwice
    1 2 "s2" "m" true rfl
  exact ⟨h.1, h.2.2.1, h.2.2.2.2.1, h.2.2.2.2.2.2, by rfl, by rfl⟩

/-! The back-reference invariant (C10): every instance reachable from an
Element's attachment maps is stored with its element back-reference set to
that owning Element. -/

/-- Every State or Modifier instance attached to an Element has its element
back-reference set to the owning Element, and the attachment map stores
that very instance id. -/
def backrefInv (s : Sys V) : Prop :=
  ∀ (eid : Nat) (elem : Elem), s.elemStore[eid]? = some elem →
    (∀ (nm : String) (sid : Nat), lookupA elem.states nm = some sid →
      ∃ st : StInst V, s.stateStore[sid]? = some st ∧ st.element = some eid) ∧
    (∀ (nm : String) (mid : Nat), lookupA elem.modifiers nm = some mid →
      ∃ m : MInst V, s.modStore[mid]? = some m ∧ m.element = some eid)

theorem backrefInv_ext {s t : Sys V} (he : t.elemStore = s.elemStore)
    (hs : t.stateStore = s.stateStore) (hm : t.modStore = s.modStore)
    (h : backrefInv s) : backrefInv t := by
  unfold backrefInv
  rw [he, hs, hm]
  exact h

theorem resolveEl_inv {s : Sys V} (h : Nat) (hInv : backrefInv s) :
    backrefInv (resolveEl s h).1 := by
  cases hl : lookupA s.elements (s.keyFn h) with
  | some e => rw [resolveEl_of_lookup hl]; exact hInv
  | none =>
    rw [resolveEl_of_none hl]
    intro eid elem he
    simp only at he
    rw [getElem_concat] at he
    by_cases h1 : eid < s.elemStore.length
    · rw [if_pos h1] at he
      exact hInv eid elem he
    · rw [if_neg h1] at he
      by_cases h2 : eid = s.elemStore.length
      · rw [if_pos h2] at he
        injection he with he2
        subst he2
        exact ⟨fun nm sid hx => by simp [lookupA] at hx,
          fun nm mid hx => by simp [lookupA] at hx⟩
      · rw [if_neg h2] at he
        exact absurd he (by simp)

theorem attachState_inv {s : Sys V} (eid0 : Nat) (sn : String)
    (hInv : backrefInv s) : backrefInv (attachStateIfAbsent s eid0 sn).1 := by
  unfold attachStateIfAbsent
  cases getStateId s eid0 sn with
  | some x => exact hInv
  | none =>
    cases lookupA s.stateTemplates sn with
    | none => exact hInv
    | some cb =>
      intro eid elem he
      simp only at he
      by_cases h1 : eid = eid0
      · subst h1
        rw [updNth_getElem_self] at he
        cases ho : s.elemStore[eid]? with
        | none => rw [ho] at he; simp at he
        | some elemOld =>
          rw [ho] at he
          rw [Option.map_some'] at he
          injection he with he2
          subst he2
          obtain ⟨hstOld, hmodOld⟩ := hInv eid elemOld ho
          constructor
          · intro nm sid hsid
            simp only at hsid
            by_cases hnm : nm = sn
            · subst hnm
              rw [lookupA_setA_self] at hsid
              injection hsid with hsid2
              subst hsid2
              exact ⟨_, List.getElem?_concat_length _ _, rfl⟩
            · rw [lookupA_setA_ne _ _ _ _ hnm] at hsid
              obtain ⟨st, hst, hel⟩ := hstOld nm sid hsid
              exact ⟨st, getElem_concat_left hst, hel⟩
          · intro nm mid hmid
            simp only at hmid
            exact hmodOld nm mid hmid
      · rw [updNth_getElem_ne _ _ _ _ h1] at he
        obtain ⟨hstOld, hmodOld⟩ := hInv eid elem he
        refine ⟨fun nm sid hsid => ?_, hmodOld⟩
        obtain ⟨st, hst, hel⟩ := hstOld nm sid hsid
        exact ⟨st, getElem_concat_left hst, hel⟩

theorem attachModifier_inv {s : Sys V} (eid0 : Nat) (mn : String)
    (hInv : backrefInv s) : backrefInv (attachModifierIfAbsent s eid0 mn).1 := by
  unfold attachModifierIfAbsent
  cases getModifierId s eid0 mn with
  | some x => exact hInv
  | none =>
    cases lookupA s.modTemplates mn with
    | none => exact hInv
    | some cb =>
      intro eid elem he
      simp only at he
      by_cases h1 : eid = eid0
      · subst h1
        rw [updNth_getElem_self] at he
        cases ho : s.elemStore[eid]? with
        | none => rw [ho] at he; simp at he
        | some elemOld =>
          rw [ho] at he
          rw [Option.map_some'] at he
          injection he with he2
          subst he2
          obtain ⟨hstOld, hmodOld⟩ := hInv eid elemOld ho
          constructor
          · intro nm sid hsid
            simp only at hsid
            exact hstOld nm sid hsid
          · intro nm mid hmid
            simp only at hmid
            by_cases hnm : nm = mn
            · subst hnm
              rw [lookupA_setA_self] at hmid
              injection hmid with hmid2
              subst hmid2
              exact ⟨_, List.getElem?_concat_length _ _, rfl⟩
            · rw [lookupA_setA_ne _ _ _ _ hnm] at hmid
              obtain ⟨m, hm, hel⟩ := hmodOld nm mid hmid
              exact ⟨m, getElem_concat_left hm, hel⟩
      · rw [updNth_getElem_ne _ _ _ _ h1] at he
        obtain ⟨hstOld, hmodOld⟩ := hInv eid elem he
        refine ⟨hstOld, fun nm mid hmid => ?_⟩
        obtain ⟨m, hm, hel⟩ := hmodOld nm mid hmid
        exact ⟨m, getElem_concat_left hm, hel⟩

theorem subscribe_inv {s : Sys V} (mid0 sid0 : Nat) (hInv : backrefInv s) :
    backrefInv (subscribe s mid0 sid0) := by
  intro eid elem he
  rw [subscribe_elemStore] at he
  obtain ⟨hst, hmod⟩ := hInv eid elem he
  constructor
  · intro nm sid hsid
    obtain ⟨st, hstg, hel⟩ := hst nm sid hsid
    by_cases h1 : sid = sid0
    · subst h1
      refine ⟨{ st with modifiers := st.modifiers ++ [mid0] }, ?_, hel⟩
      rw [subscribe_stateStore_self, hstg]
      rfl
    · refine ⟨st, ?_, hel⟩
      show (updNth s.stateStore sid0 _)[sid]? = some st
      rw [updNth_getElem_ne _ _ _ _ h1]
      exact hstg
  · intro nm mid hmid
    obtain ⟨m, hmg, hel⟩ := hmod nm mid hmid
    by_cases h1 : mid = mid0
    · subst h1
      refine ⟨{ m with states := m.states ++ [sid0] }, ?_, hel⟩
      rw [subscribe_modStore_self, hmg]
      rfl
    · refine ⟨m, ?_, hel⟩
      show (updNth s.modStore mid0 _)[mid]? = some m
      rw [updNth_getElem_ne _ _ _ _ h1]
      exact hmg

theorem subscribeAll_inv {s : Sys V} (mid0 : Nat) (L : List Nat)
    (hInv : backrefInv s) : backrefInv (subscribeAll s mid0 L) := by
  induction L generalizing s with
  | nil => exact hInv
  | cons a L ih => rw [subscribeAll_cons]; exact ih (subscribe_inv mid0 a hInv)

theorem inheritStep_inv {s : Sys V} (depEid : Nat) (mn : String) (mid : Nat)
    (hInv : backrefInv s) : backrefInv (inheritStep s depEid mn mid) := by
  cases hg : getModifierId s depEid mn with
  | none => rw [inheritStep_of_noModifier hg]; exact hInv
  | some dmid =>
    cases hm : s.modStore[dmid]? with
    | none => simp only [inheritStep, hg, hm]; exact hInv
    | some dm =>
      rw [inheritStep_of_modifier hg hm]
      exact subscribeAll_inv mid dm.states hInv

theorem crFinish_inv {s5 : Sys V} (inh : Bool) (depEid : Nat) (mn : String)
    (mid : Nat) (hInv : backrefInv s5) :
    backrefInv (crFinish inh s5 depEid mn mid) := by
  unfold crFinish
  cases inh with
  | false => exact hInv
  | true => exact inheritStep_inv depEid mn mid hInv

theorem createRelationship_inv {s : Sys V} (hd : Nat) (sn : String) (ht : Nat)
    (mn : String) (inh : Bool) (hInv : backrefInv s) :
    backrefInv (createRelationship hd sn ht mn inh s).1 := by
  have i1 : backrefInv (resolveEl s hd).1 := resolveEl_inv hd hInv
  have i2 : backrefInv (attachStateIfAbsent (resolveEl s hd).1
      (resolveEl s hd).2 sn).1 := attachState_inv _ _ i1
  simp only [createRelationship]
  split
  · rename_i s2 e heq
    rw [heq] at i2
    exact i2
  · rename_i s2 heq
    rw [heq] at i2
    have i3 : backrefInv (resolveEl s2 ht).1 := resolveEl_inv ht i2
    have i4 : backrefInv (attachModifierIfAbsent (resolveEl s2 ht).1
        (resolveEl s2 ht).2 mn).1 := attachModifier_inv _ _ i3
    split
    · rename_i s4 e heq2
      rw [heq2] at i4
      exact i4
    · rename_i s4 heq2
      rw [heq2] at i4
      split
      · rename_i sid mid heq3 heq4
        exact crFinish_inv inh _ mn mid (subscribe_inv mid sid i4)
      · exact i4

/-- One public operation of the engine surface. -/
inductive Op (V : Type) where
  | addState (nm : String) (cb : V → Bool)
  | addModifier (nm : String) (cb : V → V)
  | createRel (hd : Nat) (sn : String) (ht : Nat) (mn : String) (inh : Bool)
  | setKeyCb (f : Nat → String)

/-- Apply one public operation (a failing createRelationship still leaves
its partial mutations, as the thrown exception would). -/
def applyOp (s : Sys V) : Op V → Sys V
  | .addState nm cb => addState nm cb s
  | .addModifier nm cb => addModifier nm cb s
  | .createRel hd sn ht mn inh => (createRelationship hd sn ht mn inh s).1
  | .setKeyCb f => setElementKeyCallback f s

/-- Apply a sequence of public operations in order. -/
def applyOps (s : Sys V) (ops : List (Op V)) : Sys V := ops.foldl applyOp s

theorem applyOp_inv {s : Sys V} (op : Op V) (hInv : backrefInv s) :
    backrefInv (applyOp s op) := by
  cases op with
  | addState nm cb => exact backrefInv_ext rfl rfl rfl hInv
  | addModifier nm cb => exact backrefInv_ext rfl rfl rfl hInv
  | createRel hd sn ht mn inh => exact createRelationship_inv hd sn ht mn inh hInv
  | setKeyCb f => exact backrefInv_ext rfl rfl rfl hInv

theorem applyOps_inv {s : Sys V} (ops : List (Op V)) (hInv : backrefInv s) :
    backrefInv (applyOps s ops) := by
  induction ops generalizing s with
  | nil => exact hInv
  | cons op ops ih => exact ih (applyOp_inv op hInv)

/-- C10: after every sequence of public operations starting from the initial
engine state, every State or Modifier instance attached to an Element has
its element back-reference set to that owning Element, and the attachment
map stores that same instance. -/
theorem backref_invariant_all_ops (V : Type) (ops : List (Op V)) :
    backrefInv (applyOps (initSys V) ops) := by
  refine applyOps_inv ops ?_
  intro eid elem he
  simp [initSys] at he

/-- Witness for C10 on a concrete operation sequence. -/
theorem backref_invariant_all_ops_witness :
    backrefInv (applyOps (initSys Nat)
      [Op.addState "on" (fun v => v == 1),
       Op.addModifier "bump" (fun v => v + 1),
       Op.createRel 0 "on" 1 "bump" false]) :=
  backref_invariant_all_ops Nat
    [Op.addState "on" (fun v => v == 1),
     Op.addModifier "bump" (fun v => v + 1),
     Op.createRel 0 "on" 1 "bump" false]

/-! Runtime claims: single trigger, cascade order, fan-out publish set. -/

/-- C7: with dependency host 0 carrying the active state "on" and host 1's
modifier "bump" subscribed to it exactly once, one change trigger on host
0's element runs the mutation callback exactly once: the trace is one
publish of state 0 followed by one execution of modifier 0, and host 1's
value is bumped once. -/
theorem single_trigger_executes_once :
    triggerChange demoOnce 3 0 [(0, 1), (1, 5)]
      = some ([(0, 1), (1, 6)], [Ev.publish 0, Ev.exec 0]) ∧
    (triggerChange demoOnce 3 0 [(0, 1), (1, 5)]).map
        (fun r => r.2.count (Ev.exec 0)) = some 1 := by
  exact ⟨by decide, by decide⟩

/-- Cascade scenario system for C1: state "sD" on host 0 drives modifier
"m1" on host 1 (which sets host 1's value to 1, activating state "sE1"),
and "sE1" drives modifier "m2" on host 2. -/
def c1Sys : Sys Nat :=
  (createRelationship 1 "sE1" 2 "m2" false
    (createRelationship 0 "sD" 1 "m1" false
      (addModifier "m2" (fun v => v + 10)
        (addModifier "m1" (fun _ => 1)
          (addState "sE1" (fun v => v == 1)
            (addState "sD" (fun v => v == 1) (initSys Nat)))))).1).1

/-- Initial world of the cascade scenario: host 0 checked, hosts 1 and 2
untouched. -/
def c1World : World Nat := [(0, 1), (1, 0), (2, 0)]

/-- Modifier instance 0 of the cascade scenario (modifier "m1" on element
1), recovered from the store. -/
def c1M1 : MInst Nat := (c1Sys.modStore[0]?).getD ⟨none, id, []⟩

/-- Element 1 of the cascade scenario (host 1). -/
def c1E1 : Elem := (c1Sys.elemStore[1]?).getD ⟨0, [], []⟩

/-- C1: Modifier execute performs two ordered effects — first the mutation
callback on the owning Element's host (the world update), then that
Element's fan-out on the already-mutated world, with the exec event
preceding all events of the fan-out; consequently, in the chain
D -> M1 (element 1) -> M2 (element 2) where element 1's state becomes active
only after M1's mutation, one change trigger on D runs M1's and then M2's
mutation callbacks, in that order, in a single run. -/
theorem modifier_execute_order_and_cascade {V : Type} (g : Sys V)
    (fuel mid : Nat) (rest : List Nat) (w : World V) (tr : List Ev)
    (m : MInst V) (eid : Nat) (elem : Elem) (v : V)
    (hm : g.modStore[mid]? = some m) (he : m.element = some eid)
    (hel : g.elemStore[eid]? = some elem)
    (hv : lookupA w elem.hostId = some v) :
    execListH g (fun e w1 t1 => modifyDependentsF g fuel e w1 t1)
        (mid :: rest) w tr
      = (modifyDependentsF g fuel eid (setA w elem.hostId (m.callback v))
          (tr ++ [Ev.exec mid])).bind
          (fun r => execListH g (fun e w1 t1 => modifyDependentsF g fuel e w1 t1)
            rest r.1 r.2) ∧
    triggerChange c1Sys 5 0 c1World
      = some ([(0, 1), (1, 1), (2, 10)],
          [Ev.publish 0, Ev.exec 0, Ev.publish 1, Ev.exec 1]) := by
  constructor
  · simp [execListH, hm, he, hel, hv]
  · decide

/-- Witness for C1 at the cascade scenario itself: modifier 0's execute step
is the mutation of host 1 followed by element 1's fan-out. -/
theorem modifier_execute_order_and_cascade_witness :
    execListH c1Sys (fun e w1 t1 => modifyDependentsF c1Sys 4 e w1 t1)
        [0] c1World []
      = (modifyDependentsF c1Sys 4 1 (setA c1World c1E1.hostId (c1M1.callback 0))
          [Ev.exec 0]).bind
          (fun r => execListH c1Sys (fun e w1 t1 => modifyDependentsF c1Sys 4 e w1 t1)
            [] r.1 r.2) ∧
    triggerChange c1Sys 5 0 c1World
      = some ([(0, 1), (1, 1), (2, 10)],
          [Ev.publish 0, Ev.exec 0, Ev.publish 1, Ev.exec 1]) := by
  have h := modifier_execute_order_and_cascade c1Sys 4 0 [] c1World []
    c1M1 1 c1E1 0 rfl rfl rfl rfl
  simpa using h

theorem activeIds_filter {V : Type} (g : Sys V) (w : World V)
    (l : List (String × Nat)) (act : List Nat)
    (h : activeIds g w l = some act) :
    act = (l.map Prod.snd).filter (fun sid => (isActiveO g w sid).getD false) := by
  induction l generalizing act with
  | nil =>
    simp [activeIds] at h
    subst h
    simp
  | cons p rest ih =>
    obtain ⟨nm, sid⟩ := p
    simp only [activeIds, Option.bind_eq_bind, bind, Option.bind] at h
    cases hb : isActiveO g w sid with
    | none => rw [hb] at h; simp at h
    | some b =>
      rw [hb] at h
      cases hr : activeIds g w rest with
      | none => rw [hr] at h; simp at h
      | some r =>
        rw [hr] at h
        simp at h
        have := ih r hr
        cases b with
        | false => simp [← h, hb, this]
        | true => simp [← h, hb, this]

/-- System with an active, subscriber-less state: "s" was attached to host
0's element by a createRelationship call that then failed on the
unregistered modifier name "m". -/
def noSubSys : Sys Nat :=
  (createRelationship 0 "s" 1 "m" false
    (addState "s" (fun _ => true) (initSys Nat))).1

/-- Counterexample to C3 as stated: state 0 is active and has no subscribed
Modifier, yet the fan-out still invokes its publish operation (the publish
event is in the trace), so publish is not invoked exactly for the active
States that have at least one subscriber. -/
theorem fanout_publishes_subscriberless_state :
    triggerChange noSubSys 2 0 [(0, 0), (1, 0)]
      = some ([(0, 0), (1, 0)], [Ev.publish 0]) ∧
    (noSubSys.stateStore[0]?).map StInst.modifiers = some [] ∧
    isActiveO noSubSys [(0, 0), (1, 0)] 0 = some true := by
  exact ⟨by decide, by rfl, by decide⟩

/-- C3 (amended): the fan-out computes the set of attached States whose
predicate evaluates true against the live host reference, in attachment
order, and invokes the publish operation of every active State — including
those with no subscribed Modifier, for which the publish is a no-op;
inactive States never publish. -/
theorem fanout_publishes_every_active_state {V : Type} (g : Sys V)
    (fuel eid : Nat) (w : World V) (tr : List Ev) (elem : Elem)
    (act : List Nat)
    (hel : g.elemStore[eid]? = some elem)
    (hact : activeIds g w elem.states = some act) :
    act = (elem.states.map Prod.snd).filter
      (fun sid => (isActiveO g w sid).getD false) ∧
    (∀ sid ∈ act, isActiveO g w sid = some true) ∧
    (∀ p ∈ elem.states, isActiveO g w p.2 = some false → p.2 ∉ act) ∧
    modifyDependentsF g (fuel + 1) eid w tr
      = publishListH g (fun e w1 t1 => modifyDependentsF g fuel e w1 t1)
          act w tr ∧
    (∀ (md : Nat → World V → List Ev → Option (RunRes V)) (sid : Nat)
      (rest : List Nat) (w1 : World V) (tr1 : List Ev) (st : StInst V),
      g.stateStore[sid]? = some st →
      publishListH g md (sid :: rest) w1 tr1
        = (execListH g md st.modifiers w1 (tr1 ++ [Ev.publish sid])).bind
            (fun r => publishListH g md rest r.1 r.2)) := by
  have hfil := activeIds_filter g w elem.states act hact
  refine ⟨hfil, ?_, ?_, ?_, ?_⟩
  · intro sid hsid
    rw [hfil] at hsid
    have := List.of_mem_filter hsid
    cases hb : isActiveO g w sid with
    | none => rw [hb] at this; simp at this
    | some b => rw [hb] at this; simp at this; rw [this]
  · intro p hp hfalse
    intro hin
    rw [hfil] at hin
    have := List.of_mem_filter hin
    rw [hfalse] at this
    simp at this
  · simp [modifyDependentsF, hel, hact]
  · intro md sid rest w1 tr1 st hst
    simp [publishListH, hst]

/-- Witness for C3 (amended) at the subscriber-less scenario: the active set
is exactly state 0 and the fan-out is its publish loop. -/
theorem fanout_publishes_every_active_state_witness :
    ([0] : List Nat) = ([("s", 0)].map Prod.snd).filter
      (fun sid => (isActiveO noSubSys [(0, 0), (1, 0)] sid).getD false) ∧
    modifyDependentsF noSubSys 2 0 [(0, 0), (1, 0)] []
      = publishListH noSubSys
          (fun e w1 t1 => modifyDependentsF noSubSys 1 e w1 t1)
          [0] [(0, 0), (1, 0)] [] := by
  have h := fanout_publishes_every_active_state noSubSys 1 0
    [(0, 0), (1, 0)] [] (Elem.mk 0 [("s", 0)] []) [0] rfl rfl
  exact ⟨h.1, h.2.2.2.1⟩

end FieldDeps
